import Mathlib

/-!
Shallow embedding of `src/main.go` (a Bubble Tea terminal dashboard over two
systemd units) and proofs about it.

Modelling conventions:
* Strings are Lean `String`s; line splitting (`strings.Split(s, "\n")`) and
  joining (`strings.Join(lines, "\n")`) are embedded on `String.data`
  (`List Char`), which matches Go's byte-wise behaviour for the one-byte
  separator `"\n"`.
* The Bubble Tea event loop delivers messages one at a time to `update`
  (Go `model.Update`). Commands returned by `Update` are represented
  symbolically by the `Cmd` type. `context.WithCancel` handles are modelled
  as `Nat` identifiers: each `asyncRun` call stores a caller-supplied fresh
  identifier, and a step reports the identifiers of the cancel functions it
  invoked.
* The `bubbles` list component is abstracted to a selected index over the
  fixed item list, updated only by navigation messages; the `bubbles`
  spinner's `Update` advances only on its private tick-message type, which
  this program never produces, so it is embedded as the identity on the
  spinner state.
* `exec.CommandContext` invocations are represented by the argv the program
  would spawn; the closure inside `asyncRun` is embedded by `runnerCommand`,
  with the output of the synchronous `systemctl is-enabled` probe passed in
  as a parameter.
-/

/-- Go `unitItem`. -/
structure unitItem where
  title : String
  desc : String
deriving Repr, DecidableEq

/-- Go `serviceName`. -/
def serviceName : String := "nightly-onedrive-backup.service"

/-- Go `timerName`. -/
def timerName : String := "nightly-onedrive-backup.timer"

/-- Embedding of the `bubbles` list component: the fixed items plus the
selected index. -/
structure ListState where
  items : List unitItem
  index : Nat
deriving Repr, DecidableEq

/-- Messages of the program: key presses, `outputMsg`, `errMsg`, `tickMsg`. -/
inductive Msg where
  | key (k : String)
  | output (tag : String) (out : String)
  | err (e : String)
  | tick
deriving Repr, DecidableEq

/-- Commands returned by `Update`, symbolically: `tea.Quit`, the batch
returned by `asyncRun` (carrying its action tag and target unit), and the
`tea.Tick` reschedule. -/
inductive Cmd where
  | quit
  | asyncStart (tag : String) (unit : String)
  | tick
deriving Repr, DecidableEq

/-- Go `model`: list, spinner state, status line, last output, loading flag,
error, and the stored cancellation handle (`context.CancelFunc`, as an
identifier). -/
structure Model where
  list : ListState
  spin : Nat
  status : String
  lastOutput : String
  loading : Bool
  err : Option String
  cancelFunc : Option Nat
deriving Repr, DecidableEq

/-- Go `newModel`. -/
def newModel : Model :=
  { list := { items := [⟨timerName, "Enable/Disable, View status, Run Now"⟩,
                        ⟨serviceName, "Run Now, View logs"⟩],
              index := 0 },
    spin := 0, status := "Ready", lastOutput := "", loading := false,
    err := none, cancelFunc := none }

/-- Go `m.list.SelectedItem().(unitItem)`. -/
def selectedItem (m : Model) : unitItem :=
  m.list.items.getD m.list.index ⟨"", ""⟩

/-- The `bubbles` list update: navigation keys move the selection; every
other message leaves the list unchanged. -/
def listUpdate (l : ListState) (msg : Msg) : ListState :=
  match msg with
  | Msg.key k =>
      if k = "up" then { l with index := l.index - 1 }
      else if k = "down" then
        { l with index := min (l.index + 1) (l.items.length - 1) }
      else l
  | _ => l

/-- The `bubbles` spinner update: it advances only on its own internal tick
message type, which this program never sends it (the program's `tickMsg` is
a distinct type), so it never changes the spinner state. -/
def spinUpdate (_ : Msg) (n : Nat) : Nat := n

/-- Go `strings.HasSuffix`. -/
def hasSuffix (s suffix : String) : Bool :=
  suffix.data.isSuffixOf s.data

/-- Go `firstLine`: the prefix before the first newline, or the whole
string when it has none. -/
def firstLine (s : String) : String :=
  ⟨s.data.takeWhile (fun c => c ≠ '\n')⟩

/-- Go `strings.Split(s, "\n")` as first-segment/remaining-segments. -/
def splitNl1 : List Char → List Char × List (List Char)
  | [] => ([], [])
  | c :: s =>
    let p := splitNl1 s
    if c = '\n' then ([], p.1 :: p.2) else (c :: p.1, p.2)

/-- Go `strings.Split(s, "\n")`: the (always nonempty) list of segments. -/
def splitNl (s : List Char) : List (List Char) :=
  (splitNl1 s).1 :: (splitNl1 s).2

/-- Go `strings.Join(lines, "\n")`. -/
def joinNl : List (List Char) → List Char
  | [] => []
  | x :: xs =>
    match xs with
    | [] => x
    | _ :: _ => x ++ '\n' :: joinNl xs

/-- Go `trimLines`: split on newlines, keep the last `n` segments when
there are more than `n`, and re-join. -/
def trimLines (s : String) (n : Nat) : String :=
  let lines := splitNl s.data
  let lines := if n < lines.length then lines.drop (lines.length - n) else lines
  ⟨joinNl lines⟩

/-- Go `asyncRun`'s synchronous part (pointer-receiver mutation of the
model): store a fresh cancellation handle, set loading, set the status to
`tag ++ " " ++ unit`, and return the batched command. -/
def asyncRun (m : Model) (tag : String) (unit : String) (fresh : Nat) :
    Model × Cmd :=
  ({ m with
      cancelFunc := some fresh,
      loading := true,
      status := tag ++ " " ++ unit },
   Cmd.asyncStart tag unit)

/-- Go `strings.TrimSpace`: drop whitespace from both ends. -/
def trimSpace (s : String) : String :=
  ⟨((s.data.dropWhile Char.isWhitespace).reverse.dropWhile
      Char.isWhitespace).reverse⟩

/-- The closure inside Go `asyncRun`: the argv of the external command run
for an action tag, or an error for an unknown tag. `probe` is the captured
output of the synchronous `systemctl is-enabled <unit>` probe, consulted
only by the `"toggle"` branch. -/
def runnerCommand (tag : String) (unit : String) (probe : String) :
    Except String (List String) :=
  if tag = "status" then .ok ["systemctl", "status", "--no-pager", unit]
  else if tag = "start" then .ok ["systemctl", "start", unit]
  else if tag = "toggle" then
    if trimSpace probe = "enabled" then
      .ok ["systemctl", "disable", "--now", unit]
    else
      .ok ["systemctl", "enable", "--now", unit]
  else if tag = "enable" then .ok ["systemctl", "enable", "--now", unit]
  else if tag = "logs" then .ok ["journalctl", "-u", unit, "-n", "50", "--no-pager"]
  else .error "unknown action"

/-- The result of one `Update` step: the new model, the commands returned
to the runtime, and the identifiers of the cancel handles invoked during
the step. -/
structure StepResult where
  model : Model
  cmds : List Cmd
  invoked : List Nat
deriving Repr, DecidableEq

/-- Go `model.Update`. Handled action keys return early (skipping the
trailing spinner/list updates), exactly as the `return m, ...` statements
do in the source; result, error, tick and unhandled key messages fall
through to the common spinner/list section. -/
def update (m : Model) (msg : Msg) (fresh : Nat) : StepResult :=
  match msg with
  | Msg.key k =>
      if k = "q" ∨ k = "ctrl+c" then
        { model := m, cmds := [Cmd.quit], invoked := m.cancelFunc.toList }
      else if k = "enter" then
        let p := asyncRun m "status" (selectedItem m).title fresh
        { model := p.1, cmds := [p.2], invoked := [] }
      else if k = "r" then
        let p := asyncRun m "start" (selectedItem m).title fresh
        { model := p.1, cmds := [p.2], invoked := [] }
      else if k = " " then
        let t := (selectedItem m).title
        let action := if hasSuffix t ".timer" then "toggle" else "enable"
        let p := asyncRun m action t fresh
        { model := p.1, cmds := [p.2], invoked := [] }
      else if k = "l" then
        let p := asyncRun m "logs" (selectedItem m).title fresh
        { model := p.1, cmds := [p.2], invoked := [] }
      else
        let m1 := if m.loading then { m with spin := spinUpdate msg m.spin } else m
        { model := { m1 with list := listUpdate m1.list msg },
          cmds := [], invoked := [] }
  | Msg.output tag out =>
      let m1 := { m with
        loading := false,
        status := "[" ++ tag ++ "] " ++ firstLine out,
        lastOutput := out }
      let m2 := if m1.loading then { m1 with spin := spinUpdate msg m1.spin } else m1
      { model := { m2 with list := listUpdate m2.list msg },
        cmds := [], invoked := m.cancelFunc.toList }
  | Msg.err e =>
      let m1 := { m with
        loading := false,
        err := some e,
        status := "Error: " ++ e }
      let m2 := if m1.loading then { m1 with spin := spinUpdate msg m1.spin } else m1
      { model := { m2 with list := listUpdate m2.list msg },
        cmds := [], invoked := m.cancelFunc.toList }
  | Msg.tick =>
      let m1 := { m with spin := spinUpdate msg m.spin }
      let m2 := if m1.loading then { m1 with spin := spinUpdate msg m1.spin } else m1
      { model := { m2 with list := listUpdate m2.list msg },
        cmds := [Cmd.tick], invoked := [] }

/-- Rendering of the `bubbles` list (abstracted: the claims only concern
the rest of the frame). -/
def listView (l : ListState) : String :=
  String.intercalate "\n" (l.items.map (fun it => it.title))

/-- Rendering of the spinner glyph (abstracted). -/
def spinView (_ : Nat) : String := "·"

/-- The static help line at the bottom of the frame. -/
def helpLine : String :=
  "\n\n[↑/↓] navigate • [space] enable/disable • [r] run • [enter] status • [l] logs • [q] quit\n"

/-- Go `model.View` (text content; `lipgloss` styling is colour only and is
omitted). -/
def view (m : Model) : String :=
  listView m.list
    ++ (if m.loading then "\n" ++ spinView m.spin ++ " " ++ m.status
        else "\n" ++ m.status)
    ++ (if m.lastOutput = "" then "" else "\n\n" ++ trimLines m.lastOutput 20)
    ++ helpLine

/-- Outcome of Go `main`, as a function of whether `systemctl` is on the
execution path and whether `tea.Program.Start` fails. -/
structure MainResult where
  uiStarted : Bool
  stderrLines : List String
  exitCode : Nat
deriving Repr, DecidableEq

/-- Go `main`: `exec.LookPath("systemctl")` failing prints a diagnostic to
standard error and exits with status 1 before the program is started;
otherwise the interactive program is started, and a start failure exits
with status 1. -/
def mainRun (systemctlFound : Bool) (startErr : Option String) : MainResult :=
  if systemctlFound then
    match startErr with
    | some _ => { uiStarted := true, stderrLines := [], exitCode := 1 }
    | none => { uiStarted := true, stderrLines := [], exitCode := 0 }
  else
    { uiStarted := false, stderrLines := ["systemctl not found"], exitCode := 1 }

/-! ### Lemmas about line splitting and joining -/

/-- The last `n` elements of a segment list (all of it when it has at most
`n` elements); this is the spec's notion of "the last N lines". -/
def lastN (n : Nat) (L : List (List Char)) : List (List Char) :=
  if n < L.length then L.drop (L.length - n) else L

/-- The initial model with some stored output, used to exercise the output
window of the frame. -/
def mWithOutput : Model := { newModel with lastOutput := "x\ny" }

/-- The initial model with the service unit (index 1) selected. -/
def mServiceSelected : Model :=
  { newModel with list := { newModel.list with index := 1 } }

theorem trimLines_eq_lastN (s : String) (n : Nat) :
    trimLines s n = ⟨joinNl (lastN n (splitNl s.data))⟩ := rfl

theorem splitNl_eq (s : List Char) :
    splitNl s = (splitNl1 s).1 :: (splitNl1 s).2 := rfl

theorem splitNl_ne_nil (s : List Char) : splitNl s ≠ [] := by
  simp [splitNl]

theorem splitNl1_no_nl (s : List Char) :
    '\n' ∉ (splitNl1 s).1 ∧ ∀ l ∈ (splitNl1 s).2, '\n' ∉ l := by
  induction s with
  | nil => simp [splitNl1]
  | cons c s ih =>
    by_cases hc : c = '\n'
    · simp only [splitNl1, hc, if_pos rfl]
      refine ⟨by simp, ?_⟩
      intro l hl
      rcases List.mem_cons.1 hl with h | h
      · exact h ▸ ih.1
      · exact ih.2 l h
    · simp only [splitNl1, if_neg hc]
      refine ⟨?_, ih.2⟩
      intro hmem
      rcases List.mem_cons.1 hmem with h | h
      · exact hc h.symm
      · exact ih.1 h

theorem splitNl_no_nl (s : List Char) : ∀ l ∈ splitNl s, '\n' ∉ l := by
  intro l hl
  rcases List.mem_cons.1 hl with h | h
  · exact h ▸ (splitNl1_no_nl s).1
  · exact (splitNl1_no_nl s).2 l h

theorem joinNl_cons_cons (x y : List Char) (t : List (List Char)) :
    joinNl (x :: y :: t) = x ++ '\n' :: joinNl (y :: t) := rfl

theorem joinNl_splitNl (s : List Char) : joinNl (splitNl s) = s := by
  induction s with
  | nil => rfl
  | cons c s ih =>
    by_cases hc : c = '\n'
    · subst hc
      have h1 : splitNl ('\n' :: s) = [] :: splitNl s := by
        simp [splitNl, splitNl1]
      rw [h1, splitNl_eq s, joinNl_cons_cons, List.nil_append, ← splitNl_eq, ih]
    · have h1 : splitNl (c :: s) = (c :: (splitNl1 s).1) :: (splitNl1 s).2 := by
        simp [splitNl, splitNl1, hc]
      rw [h1]
      cases h2 : (splitNl1 s).2 with
      | nil =>
        rw [splitNl_eq, h2] at ih
        show c :: (splitNl1 s).1 = c :: s
        rw [show joinNl [(splitNl1 s).1] = (splitNl1 s).1 from rfl] at ih
        rw [ih]
      | cons y t =>
        rw [splitNl_eq, h2] at ih
        rw [joinNl_cons_cons, List.cons_append, ← joinNl_cons_cons, ih]

theorem splitNl1_of_no_nl (x : List Char) (h : '\n' ∉ x) :
    splitNl1 x = (x, []) := by
  induction x with
  | nil => rfl
  | cons c x ih =>
    have hc : ¬ c = '\n' := fun e => h (e ▸ List.mem_cons_self c x)
    have hx : '\n' ∉ x := fun hm => h (List.mem_cons_of_mem c hm)
    simp [splitNl1, hc, ih hx]

theorem splitNl1_append_nl (x r : List Char) (h : '\n' ∉ x) :
    splitNl1 (x ++ '\n' :: r) = (x, splitNl r) := by
  induction x with
  | nil => simp [splitNl1, splitNl]
  | cons c x ih =>
    have hc : ¬ c = '\n' := fun e => h (e ▸ List.mem_cons_self c x)
    have hx : '\n' ∉ x := fun hm => h (List.mem_cons_of_mem c hm)
    simp [splitNl1, hc, ih hx]

theorem splitNl_joinNl (L : List (List Char)) (hne : L ≠ [])
    (hnl : ∀ l ∈ L, '\n' ∉ l) : splitNl (joinNl L) = L := by
  induction L with
  | nil => exact absurd rfl hne
  | cons x t ih =>
    cases t with
    | nil =>
      have hx : '\n' ∉ x := hnl x (List.mem_cons_self x [])
      show splitNl (joinNl [x]) = [x]
      rw [show joinNl [x] = x from rfl, splitNl_eq, splitNl1_of_no_nl x hx]
    | cons y t2 =>
      have hx : '\n' ∉ x := hnl x (List.mem_cons_self x _)
      have ihr := ih (by simp) (fun l hl => hnl l (List.mem_cons_of_mem x hl))
      rw [joinNl_cons_cons, splitNl_eq,
          splitNl1_append_nl x (joinNl (y :: t2)) hx]
      rw [ihr]

theorem lastN_ne_nil (n : Nat) (L : List (List Char)) (hn : 0 < n)
    (hL : L ≠ []) : lastN n L ≠ [] := by
  unfold lastN
  split
  · intro h
    have hlen : (L.drop (L.length - n)).length = n := by
      rw [List.length_drop]
      omega
    rw [h] at hlen
    simp at hlen
    omega
  · exact hL

theorem lastN_subset (n : Nat) (L : List (List Char)) : lastN n L ⊆ L := by
  unfold lastN
  split
  · exact List.drop_subset _ _
  · exact fun _ h => h

theorem lastN_length_le (n : Nat) (L : List (List Char)) :
    (lastN n L).length ≤ n := by
  unfold lastN
  split
  · rw [List.length_drop]
    omega
  · omega

theorem lastN_of_length_le (n : Nat) (L : List (List Char))
    (h : L.length ≤ n) : lastN n L = L := by
  unfold lastN
  rw [if_neg]
  omega

theorem trimLines_splitNl (s : String) (n : Nat) (hn : 0 < n) :
    splitNl (trimLines s n).data = lastN n (splitNl s.data) := by
  rw [trimLines_eq_lastN]
  show splitNl (joinNl (lastN n (splitNl s.data))) = lastN n (splitNl s.data)
  refine splitNl_joinNl _ (lastN_ne_nil n _ hn (splitNl_ne_nil _)) ?_
  intro l hl
  exact splitNl_no_nl s.data l (lastN_subset n _ hl)

theorem trimLines_zero (s : String) : trimLines s 0 = "" := by
  rw [trimLines_eq_lastN]
  have h : lastN 0 (splitNl s.data) = [] := by
    unfold lastN
    split
    · rw [Nat.sub_zero, List.drop_length]
    · rename_i hlt
      have : (splitNl s.data).length = 0 := by omega
      exact List.length_eq_zero.1 this
  rw [h]
  rfl

theorem trimLines_of_le (s : String) (n : Nat)
    (h : (splitNl s.data).length ≤ n) : trimLines s n = s := by
  rw [trimLines_eq_lastN, lastN_of_length_le n _ h, joinNl_splitNl]

theorem trimLines_idem (s : String) (n : Nat) :
    trimLines (trimLines s n) n = trimLines s n := by
  cases n with
  | zero => rw [trimLines_zero, trimLines_zero]
  | succ k =>
    rw [trimLines_eq_lastN (trimLines s (k + 1)) (k + 1),
        trimLines_splitNl s (k + 1) (Nat.succ_pos k),
        lastN_of_length_le _ _ (lastN_length_le _ _),
        ← trimLines_eq_lastN]

/-! ### Claim theorems -/

/-- C1, counterexample: dispatch `status` (enter, handle 1), then dispatch
`start` (r, handle 2) before the first result arrives; the late result of the
abandoned `status` operation is nevertheless consumed by `update`: it changes
both the status line and the stored last output, so the abandoned (first)
operation's result is reflected in state, contradicting the claim that it is
discarded without changing status or output. -/
theorem abandonedResultChangesState :
    (update (update (update newModel (Msg.key "enter") 1).model
        (Msg.key "r") 2).model (Msg.output "status" "A-output") 3).model.lastOutput
      = "A-output"
    ∧ (update (update (update newModel (Msg.key "enter") 1).model
        (Msg.key "r") 2).model (Msg.output "status" "A-output") 3).model.status
      = "[status] A-output"
    ∧ (update (update newModel (Msg.key "enter") 1).model
        (Msg.key "r") 2).model.lastOutput ≠ "A-output"
    ∧ (update (update newModel (Msg.key "enter") 1).model
        (Msg.key "r") 2).model.status ≠ "[status] A-output" := by
  decide

/-- C1 (amended): `Update` consumes a result message unconditionally — it
never checks that the result belongs to the current `PendingOperation`. After
dispatching operation A (`enter` / status) and then operation B (`r` / start)
before A's result arrives, A's late result still clears loading, stores A's
full output, and sets the status from A's tag and first output line, so the
abandoned operation's result is reflected in state. -/
theorem resultConsumedUnconditionally (m0 : Model) (idA idB idC : Nat)
    (outA : String) :
    (update (update (update m0 (Msg.key "enter") idA).model
        (Msg.key "r") idB).model (Msg.output "status" outA) idC).model.loading
      = false
    ∧ (update (update (update m0 (Msg.key "enter") idA).model
        (Msg.key "r") idB).model (Msg.output "status" outA) idC).model.lastOutput
      = outA
    ∧ (update (update (update m0 (Msg.key "enter") idA).model
        (Msg.key "r") idB).model (Msg.output "status" outA) idC).model.status
      = "[" ++ "status" ++ "] " ++ firstLine outA :=
  ⟨rfl, rfl, rfl⟩

/-- C2: the toggle dispatch trims the enablement probe's output and compares
it literally against "enabled": if equal it dispatches
`systemctl disable --now <unit>`, and for any other probe output it
dispatches `systemctl enable --now <unit>`. -/
theorem toggleDispatch (unit probe : String) :
    (trimSpace probe = "enabled" →
      runnerCommand "toggle" unit probe
        = .ok ["systemctl", "disable", "--now", unit])
    ∧ (trimSpace probe ≠ "enabled" →
      runnerCommand "toggle" unit probe
        = .ok ["systemctl", "enable", "--now", unit]) := by
  constructor <;> intro h <;> simp [runnerCommand, h]

/-- C2 witness. -/
theorem toggleDispatch_witness :
    runnerCommand "toggle" timerName " enabled\n"
      = .ok ["systemctl", "disable", "--now", timerName]
    ∧ runnerCommand "toggle" timerName "disabled\n"
      = .ok ["systemctl", "enable", "--now", timerName] :=
  ⟨(toggleDispatch timerName " enabled\n").1 (by decide),
   (toggleDispatch timerName "disabled\n").2 (by decide)⟩

/-- C3: `trimLines` returns exactly the last `n` lines of the input (all
lines when the input has at most `n`), and it is idempotent at the same
`n`. -/
theorem trimLinesLastNIdem (s : String) (n : Nat) :
    (trimLines s n).data = joinNl (lastN n (splitNl s.data))
    ∧ (0 < n → splitNl (trimLines s n).data = lastN n (splitNl s.data))
    ∧ ((splitNl s.data).length ≤ n → trimLines s n = s)
    ∧ trimLines (trimLines s n) n = trimLines s n :=
  ⟨rfl, trimLines_splitNl s n, trimLines_of_le s n, trimLines_idem s n⟩

/-- C3 witness. -/
theorem trimLinesLastNIdem_witness :
    splitNl (trimLines "a\nb\nc" 2).data = lastN 2 (splitNl ("a\nb\nc").data)
    ∧ trimLines "a\nb" 5 = "a\nb" :=
  ⟨(trimLinesLastNIdem "a\nb\nc" 2).2.1 (by decide),
   (trimLinesLastNIdem "a\nb" 5).2.2.1 (by decide)⟩

/-- C4, counterexample: pressing space with the service unit selected
dispatches the enable path (tag "enable", `systemctl enable --now`), not the
run-now path (`systemctl start`) the claim states. -/
theorem spaceServiceDispatchesEnable :
    (update mServiceSelected (Msg.key " ") 1).cmds
      = [Cmd.asyncStart "enable" serviceName]
    ∧ runnerCommand "enable" serviceName ""
      = .ok ["systemctl", "enable", "--now", serviceName]
    ∧ runnerCommand "start" serviceName ""
      = .ok ["systemctl", "start", serviceName]
    ∧ ["systemctl", "enable", "--now", serviceName]
      ≠ ["systemctl", "start", serviceName] :=
  ⟨by decide, rfl, rfl, by decide⟩

/-- C4 (amended): pressing space dispatches toggle-enablement when the
selected unit's name ends in ".timer" and the enable path
(`enable --now`) otherwise; on the program's two units this is toggle for
the timer unit and enable for the service unit. -/
theorem spaceDispatch (m : Model) (fresh : Nat) :
    (hasSuffix (selectedItem m).title ".timer" = true →
      (update m (Msg.key " ") fresh).cmds
        = [Cmd.asyncStart "toggle" (selectedItem m).title])
    ∧ (hasSuffix (selectedItem m).title ".timer" = false →
      (update m (Msg.key " ") fresh).cmds
        = [Cmd.asyncStart "enable" (selectedItem m).title])
    ∧ (update newModel (Msg.key " ") fresh).cmds
        = [Cmd.asyncStart "toggle" timerName]
    ∧ (update mServiceSelected (Msg.key " ") fresh).cmds
        = [Cmd.asyncStart "enable" serviceName] := by
  have hred : ∀ (mm : Model), (update mm (Msg.key " ") fresh).cmds
      = [Cmd.asyncStart
          (if hasSuffix (selectedItem mm).title ".timer" then "toggle"
           else "enable")
          (selectedItem mm).title] := fun _ => rfl
  refine ⟨fun h => ?_, fun h => ?_, ?_, ?_⟩
  · rw [hred]
    simp [h]
  · rw [hred]
    simp [h]
  · rfl
  · rfl

/-- C4 witness. -/
theorem spaceDispatch_witness :
    (update newModel (Msg.key " ") 7).cmds
      = [Cmd.asyncStart "toggle" (selectedItem newModel).title]
    ∧ (update mServiceSelected (Msg.key " ") 7).cmds
      = [Cmd.asyncStart "enable" (selectedItem mServiceSelected).title] :=
  ⟨(spaceDispatch newModel 7).1 (by decide),
   (spaceDispatch mServiceSelected 7).2.1 (by decide)⟩

/-- C5, counterexample: consuming a successful result in the Busy state sets
the status line to "[<tag>] " followed by the first output line, not to
exactly the first line of the captured output. -/
theorem outputStatusHasTagBracket :
    (update { newModel with loading := true, cancelFunc := some 1 }
        (Msg.output "start" "done\nmore") 2).model.status = "[start] done"
    ∧ firstLine "done\nmore" = "done"
    ∧ "[start] done" ≠ "done" := by
  decide

/-- C5 (amended): when a successful command result is consumed in the Busy
state, `Update` clears the loading flag, stores the full captured output,
and sets the status line to "[" ++ tag ++ "] " followed by the first line of
the command's captured output. -/
theorem outputUpdatesState (m : Model) (tag out : String) (fresh : Nat)
    (_h : m.loading = true) :
    (update m (Msg.output tag out) fresh).model.loading = false
    ∧ (update m (Msg.output tag out) fresh).model.lastOutput = out
    ∧ (update m (Msg.output tag out) fresh).model.status
      = "[" ++ tag ++ "] " ++ firstLine out :=
  ⟨rfl, rfl, rfl⟩

/-- C5 witness. -/
theorem outputUpdatesState_witness :
    (update { newModel with loading := true }
        (Msg.output "start" "ok\nrest") 1).model.loading = false
    ∧ (update { newModel with loading := true }
        (Msg.output "start" "ok\nrest") 1).model.lastOutput = "ok\nrest"
    ∧ (update { newModel with loading := true }
        (Msg.output "start" "ok\nrest") 1).model.status
      = "[" ++ "start" ++ "] " ++ firstLine "ok\nrest" :=
  outputUpdatesState { newModel with loading := true } "start" "ok\nrest" 1 rfl

/-- C6: pressing `l` dispatches the log-query command
`journalctl -u <unit> -n 50 --no-pager`, and the rendered frame shows at
most the last 20 lines of the stored output (the output window of the frame
is `trimLines lastOutput 20`, whose line decomposition is the last 20 lines
and has length at most 20). -/
theorem logsDispatchAndWindow (m : Model) (fresh : Nat)
    (unit probe out : String) :
    (update m (Msg.key "l") fresh).cmds
      = [Cmd.asyncStart "logs" (selectedItem m).title]
    ∧ runnerCommand "logs" unit probe
      = .ok ["journalctl", "-u", unit, "-n", "50", "--no-pager"]
    ∧ (splitNl (trimLines out 20).data).length ≤ 20
    ∧ splitNl (trimLines out 20).data = lastN 20 (splitNl out.data)
    ∧ (m.lastOutput ≠ "" →
        view m = listView m.list
          ++ (if m.loading then "\n" ++ spinView m.spin ++ " " ++ m.status
              else "\n" ++ m.status)
          ++ ("\n\n" ++ trimLines m.lastOutput 20) ++ helpLine) := by
  refine ⟨rfl, rfl, ?_, trimLines_splitNl out 20 (by omega), ?_⟩
  · rw [trimLines_splitNl out 20 (by omega)]
    exact lastN_length_le 20 _
  · intro h
    simp [view, h]

/-- C6 witness. -/
theorem logsDispatchAndWindow_witness :
    (update mWithOutput (Msg.key "l") 1).cmds
      = [Cmd.asyncStart "logs" (selectedItem mWithOutput).title]
    ∧ runnerCommand "logs" timerName ""
      = .ok ["journalctl", "-u", timerName, "-n", "50", "--no-pager"]
    ∧ (splitNl (trimLines "a\nb" 20).data).length ≤ 20
    ∧ splitNl (trimLines "a\nb" 20).data = lastN 20 (splitNl ("a\nb").data)
    ∧ view mWithOutput = listView mWithOutput.list
        ++ (if mWithOutput.loading then
              "\n" ++ spinView mWithOutput.spin ++ " " ++ mWithOutput.status
            else "\n" ++ mWithOutput.status)
        ++ ("\n\n" ++ trimLines mWithOutput.lastOutput 20) ++ helpLine :=
  ⟨(logsDispatchAndWindow mWithOutput 1 timerName "" "a\nb").1,
   (logsDispatchAndWindow mWithOutput 1 timerName "" "a\nb").2.1,
   (logsDispatchAndWindow mWithOutput 1 timerName "" "a\nb").2.2.1,
   (logsDispatchAndWindow mWithOutput 1 timerName "" "a\nb").2.2.2.1,
   (logsDispatchAndWindow mWithOutput 1 timerName "" "a\nb").2.2.2.2
     (by decide)⟩

/-- C7: navigation key presses (selection up, selection down, the filter
key) leave the loading flag and the status line unchanged in every state. -/
theorem navigationPreservesLoadingStatus (m : Model) (k : String)
    (fresh : Nat) (h : k = "up" ∨ k = "down" ∨ k = "/") :
    (update m (Msg.key k) fresh).model.loading = m.loading
    ∧ (update m (Msg.key k) fresh).model.status = m.status := by
  rcases h with h | h | h <;> subst h <;> cases hml : m.loading <;>
    exact ⟨by simp [update, listUpdate, hml], by simp [update, listUpdate, hml]⟩

/-- C7 witness. -/
theorem navigationPreservesLoadingStatus_witness :
    (update newModel (Msg.key "up") 1).model.loading = newModel.loading
    ∧ (update newModel (Msg.key "up") 1).model.status = newModel.status :=
  navigationPreservesLoadingStatus newModel "up" 1 (Or.inl rfl)

/-- C8: when `systemctl` is not resolvable on the execution path, `main`
prints "systemctl not found" to standard error and exits with status 1
without starting the interactive display; when it is resolvable the
interactive display is started. -/
theorem startupSystemctlCheck (found : Bool) (startErr : Option String) :
    (found = false →
      mainRun found startErr
        = { uiStarted := false, stderrLines := ["systemctl not found"],
            exitCode := 1 })
    ∧ (found = true → (mainRun found startErr).uiStarted = true) := by
  constructor <;> intro h <;> subst h <;> cases startErr <;> rfl

/-- C8 witness. -/
theorem startupSystemctlCheck_witness :
    mainRun false none
      = { uiStarted := false, stderrLines := ["systemctl not found"],
          exitCode := 1 }
    ∧ (mainRun true none).uiStarted = true :=
  ⟨(startupSystemctlCheck false none).1 rfl,
   (startupSystemctlCheck true none).2 rfl⟩

/-- C9: consuming a command-result or error message invokes exactly the
cancel handle currently stored in the state (none when no handle is
stored); consequently, after dispatching operation A and then operation B,
the stored handle is B's, so A's late result invokes B's cancel handle, not
the handle of the operation that produced the result. -/
theorem resultInvokesCurrentCancel (m : Model) (tag out e : String)
    (fresh : Nat) :
    (update m (Msg.output tag out) fresh).invoked = m.cancelFunc.toList
    ∧ (update m (Msg.err e) fresh).invoked = m.cancelFunc.toList
    ∧ (∀ (m0 : Model) (idA idB idC : Nat),
        (update (update (update m0 (Msg.key "enter") idA).model
            (Msg.key "r") idB).model (Msg.output tag out) idC).invoked
          = [idB]) :=
  ⟨rfl, rfl, fun _ _ _ _ => rfl⟩

/-- C10: `trimLines` counts the segments produced by splitting on newline,
so a trailing newline contributes a final empty segment occupying one of
the `n` window slots: `trimLines "a\nb\nc\n" 3 = "b\nc\n"`, whose three
segments contain only two non-empty lines. -/
theorem trimLinesTrailingNewline :
    trimLines "a\nb\nc\n" 3 = "b\nc\n"
    ∧ splitNl ("a\nb\nc\n").data = [['a'], ['b'], ['c'], []]
    ∧ splitNl (("b\nc\n").data) = [['b'], ['c'], []]
    ∧ ((splitNl (("b\nc\n").data)).filter (fun l => !l.isEmpty)).length = 2 := by
  decide
